import Mathlib

/-!
Verification of the credential-pool manager and stream relay of the
qwen-worker-proxy Cloudflare Worker, shallowly embedded in Lean 4.

The embedding follows `src/multi-auth.ts` (MultiAccountAuthManager) and
`src/qwen-client.ts` (QwenAPIClient).  The KV store, wall clock, random
draw and the OAuth token endpoint are external collaborators; they are
modelled as explicit state (`KV`) and oracle parameters (`World`).
JavaScript truthiness of strings (empty string is falsy) and of numbers
(zero is falsy) is modelled by the `jsOr` helpers.
-/

namespace QwenProxy

/-- JS `a || b` for an optional string: empty string and `null` are falsy. -/
def jsOrStr (a : Option String) (b : String) : String :=
  match a with
  | some s => if s = "" then b else s
  | none => b

/-- JS `a || b` for an optional number: `0` and `null` are falsy. -/
def jsOrInt (a : Option Int) (b : Int) : Int :=
  match a with
  | some n => if n = 0 then b else n
  | none => b

/-- OAuth2Credentials record stored under `ACCOUNT:<id>` (src/types.ts). -/
structure OAuth2Credentials where
  access_token : String
  refresh_token : String
  scope : String
  token_type : String
  id_token : String
  expiry_date : Int
  resource_url : Option String
  deriving DecidableEq, Repr

/-- JSON body returned by the provider token endpoint on a successful
refresh-token grant (`tokenData` in `refreshAccountToken`).  Optional
fields are absent (`none`) when the provider omits them. -/
structure TokenData where
  access_token : String
  refresh_token : Option String
  scope : Option String
  token_type : Option String
  id_token : Option String
  expires_in : Int
  deriving DecidableEq, Repr

/-- The shared KV namespace `QWEN_TOKEN_CACHE`.  `accounts` is the
association list of `ACCOUNT:<id>` entries in KV enumeration order;
`failedAccounts` is the raw string under `FAILED_ACCOUNTS` (`none` when
the key is absent); `lastResetDate` the raw string under
`LAST_FAILED_RESET_DATE`. -/
structure KV where
  accounts : List (String × OAuth2Credentials)
  failedAccounts : Option String
  lastResetDate : Option String
  deriving DecidableEq, Repr

/-- `env.QWEN_TOKEN_CACHE.get('ACCOUNT:' + id, 'json')`. -/
def kvGetAccount (kv : KV) (id : String) : Option OAuth2Credentials :=
  (kv.accounts.find? (fun p => p.1 = id)).map Prod.snd

/-- `env.QWEN_TOKEN_CACHE.put('ACCOUNT:' + id, ...)`: overwrite in place,
append when the key is new. -/
def kvPutAccount (kv : KV) (id : String) (c : OAuth2Credentials) : KV :=
  if (kv.accounts.find? (fun p => p.1 = id)).isSome then
    { kv with accounts := kv.accounts.map (fun p => if p.1 = id then (id, c) else p) }
  else
    { kv with accounts := kv.accounts ++ [(id, c)] }

/-- `getAllAccountIds`: list keys with prefix `ACCOUNT:`, strip prefix. -/
def getAllAccountIds (kv : KV) : List String :=
  kv.accounts.map Prod.fst

/-- External world seen by one operation of the manager: the wall clock
(`Date.now()` in ms), the current UTC calendar date string
(`new Date().toISOString().split('T')[0]`), the uniform draw of
`Math.random()`, and the outcome of the provider token-endpoint call per
account (`none` models a thrown `Token refresh failed` error). -/
structure World where
  now : Int
  today : String
  random : Rat
  refresh : String → Option TokenData

/-- `s.split(',')` on character lists (structural mirror of the JS
semantics: `""` yields one empty segment, separators delimit possibly
empty segments). -/
def splitComma : List Char → List (List Char)
  | [] => [[]]
  | c :: rest =>
    match splitComma rest with
    | [] => [[]]
    | l :: ls => if c = ',' then [] :: l :: ls else (c :: l) :: ls

/-- JS `failed.split(',')`. -/
def splitCommaStr (s : String) : List String :=
  (splitComma s.toList).map (fun l => String.mk l)

/-- JS `failed.join(',')`. -/
def joinComma : List String → String
  | [] => ""
  | [x] => x
  | x :: y :: rest => x ++ "," ++ joinComma (y :: rest)

/-- `checkAndResetFailedAccounts`: clear `FAILED_ACCOUNTS` and stamp
`LAST_FAILED_RESET_DATE` whenever the stored date differs from the
current UTC date. -/
def checkAndResetFailedAccounts (today : String) (kv : KV) : KV :=
  if kv.lastResetDate ≠ some today then
    { kv with failedAccounts := some "", lastResetDate := some today }
  else kv

/-- `getFailedAccounts`: reset-on-new-day, then read `FAILED_ACCOUNTS`
(`get(...) || ''`), split on commas, drop empty entries. -/
def getFailedAccounts (today : String) (kv : KV) : KV × List String :=
  let kv' := checkAndResetFailedAccounts today kv
  (kv', (splitCommaStr (kv'.failedAccounts.getD "")).filter (fun s => s ≠ ""))

/-- `markAccountAsFailed`: append the id to `FAILED_ACCOUNTS` unless present. -/
def markAccountAsFailed (today : String) (accountId : String) (kv : KV) : KV :=
  let p := getFailedAccounts today kv
  if accountId ∈ p.2 then p.1
  else { p.1 with failedAccounts := some (joinComma (p.2 ++ [accountId])) }

/-- `refreshAccountToken` after a 2xx token-endpoint response `td`:
build the new credential record (JS `||` fallbacks for optional fields,
`expiry_date = Date.now() + expires_in * 1000`, no `resource_url`
field), persist it under `ACCOUNT:<id>`, return it. -/
def refreshAccountToken (now : Int) (accountId : String) (refreshToken : String)
    (td : TokenData) (kv : KV) : KV × OAuth2Credentials :=
  let newCredentials : OAuth2Credentials :=
    { access_token := td.access_token
      refresh_token := jsOrStr td.refresh_token refreshToken
      scope := jsOrStr td.scope ""
      token_type := jsOrStr td.token_type "Bearer"
      id_token := jsOrStr td.id_token ""
      expiry_date := now + td.expires_in * 1000
      resource_url := none }
  (kvPutAccount kv accountId newCredentials, newCredentials)

/-! ### Error classification (`extractStatusCode`, `handleApiError` guards) -/

/-- Bool substring test, modelling JS `String.prototype.includes`. -/
def listIsInfixOf (sub : List Char) : List Char → Bool
  | [] => sub.isEmpty
  | c :: rest => sub.isPrefixOf (c :: rest) || listIsInfixOf sub rest

/-- `errorMessage.includes(sub)`. -/
def strIncludes (s sub : String) : Bool :=
  listIsInfixOf sub.toList s.toList

/-- First match of the regex `(\d{3})`: the first position where three
consecutive digit characters occur, read as a number (`parseInt`). -/
def firstThreeDigits : List Char → Option Nat
  | c1 :: c2 :: c3 :: rest =>
    if c1.isDigit && c2.isDigit && c3.isDigit then
      some (((c1.toNat - 48) * 10 + (c2.toNat - 48)) * 10 + (c3.toNat - 48))
    else firstThreeDigits (c2 :: c3 :: rest)
  | _ => none

/-- `extractStatusCode`: first 3-digit run in the error message, if any. -/
def extractStatusCode (errorMessage : String) : Option Nat :=
  firstThreeDigits errorMessage.toList

/-- Guard of the Type-1 (401) branch of `handleApiError`. -/
def isUnauthorizedError (msg : String) : Bool :=
  decide (extractStatusCode msg = some 401) || strIncludes msg "401" ||
    strIncludes msg "unauthorized"

/-- Guard of the Type-2 (429) branch of `handleApiError`. -/
def isQuotaError (msg : String) : Bool :=
  decide (extractStatusCode msg = some 429) || strIncludes msg "429" ||
    strIncludes msg "quota" || strIncludes msg "rate limit"

/-- Guard of the Type-3 (500/502/504) branch of `handleApiError`. -/
def isServerError (msg : String) : Bool :=
  decide (extractStatusCode msg = some 500) || decide (extractStatusCode msg = some 502) ||
    decide (extractStatusCode msg = some 504) || strIncludes msg "500" ||
    strIncludes msg "502" || strIncludes msg "504"

/-! ### Weighted account selection (`selectBestAccount`) -/

/-- The probability ladder of `selectBestAccount`, exactly as the
if/else chain in the source orders it.  All of the source's probability
constants (0.1, 0.85, 0.7, 0.5, 0.3, 0.1, 0.05) are multiples of 0.01,
so a probability is represented by its value ×100 as a natural number;
cumulative sums then live in ℕ and the draw is compared against
`mkRat cum 100` (exactly the source's `random <= cumulativeProbability`). -/
def accountProbability (minutesLeft maxFreshness : Rat) : Nat :=
  if minutesLeft < 0 then 10
  else if minutesLeft = maxFreshness then 85
  else if minutesLeft > 30 then 70
  else if minutesLeft > 20 then 50
  else if minutesLeft > 10 then 30
  else if minutesLeft > 5 then 10
  else 5

/-- One entry of `weightedAccounts` (`probability` is the value ×100,
see `accountProbability`). -/
structure WeightedAccount where
  accountId : String
  credentials : OAuth2Credentials
  minutesLeft : Rat
  probability : Nat
  deriving DecidableEq, Repr

/-- The `accountWeights` loop: load credentials per candidate, skip
candidates with none, record `minutesLeft = (expiry_date - now)/60000`
(the exact rational `mkRat (expiry_date - now) 60000`). -/
def buildAccountWeights (now : Int) (kv : KV) (ids : List String) :
    List (String × OAuth2Credentials × Rat) :=
  ids.filterMap (fun id =>
    (kvGetAccount kv id).map (fun c => (id, c, mkRat (c.expiry_date - now) 60000)))

/-- `maxFreshness`: running `Math.max` over the loaded candidates
(none when no candidate had credentials, where the source returns
early). -/
def maxMinutes : List Rat → Option Rat
  | [] => none
  | m :: rest =>
    match maxMinutes rest with
    | none => some m
    | some m' => some (max m m')

/-- The weighted-random walk: accumulate probabilities in enumeration
order, return the first account whose cumulative probability reaches
the draw (`random <= cumulativeProbability`, with the ×100-scaled
cumulative sum read back as the rational `cum/100`). -/
def selectWeighted (random : Rat) : Nat → List WeightedAccount → Option WeightedAccount
  | _, [] => none
  | cum, a :: rest =>
    if random ≤ mkRat ((cum + a.probability : Nat) : Int) 100 then some a
    else selectWeighted random (cum + a.probability) rest

/-- The draw plus the `// Fallback (shouldn't reach here)` tail of
`selectBestAccount`: when the walk exhausts the list, the first
weighted account in enumeration order (`weightedAccounts[0]`). -/
def pickFromWeighted (random : Rat) (weightedAccounts : List WeightedAccount) :
    Option WeightedAccount :=
  match selectWeighted random 0 weightedAccounts with
  | some a => some a
  | none => weightedAccounts.head?

/-- `selectBestAccount`: filter failed accounts, weight the rest by
freshness, draw, and fall back to the first weighted account when the
walk exhausts the list. -/
def selectBestAccount (w : World) (kv : KV) :
    KV × Option (String × OAuth2Credentials) :=
  let allAccountIds := getAllAccountIds kv
  let p := getFailedAccounts w.today kv
  let availableAccountIds := allAccountIds.filter (fun id => !(p.2.contains id))
  if availableAccountIds.isEmpty then (p.1, none)
  else
    let accountWeights := buildAccountWeights w.now p.1 availableAccountIds
    match maxMinutes (accountWeights.map (fun x => x.2.2)) with
    | none => (p.1, none)
    | some maxFreshness =>
      let weightedAccounts : List WeightedAccount := accountWeights.map (fun x =>
        ⟨x.1, x.2.1, x.2.2, accountProbability x.2.2 maxFreshness⟩)
      match pickFromWeighted w.random weightedAccounts with
      | some a => (p.1, some (a.accountId, a.credentials))
      | none => (p.1, none)

/-! ### Auth manager state and `initializeAuth` -/

/-- Mutable fields of `MultiAccountAuthManager`. -/
structure AuthState where
  selectedAccount : Option String
  selectedCredentials : Option OAuth2Credentials
  forcedAccount : Option String
  deriving DecidableEq, Repr

/-- Result of one `initializeAuth` call: final KV, final manager state,
and the thrown error message if any (state and KV mutations made before
a throw persist, as they do on the JS object). -/
structure InitOutcome where
  kv : KV
  state : AuthState
  error : Option String
  deriving DecidableEq, Repr

/-- The fallback scan of `initializeAuth` after a failed proactive
refresh: first account, in enumeration order, whose credentials load
and satisfy `expiry_date > Date.now()`. -/
def findFirstValid (now : Int) (kv : KV) : List String → Option (String × OAuth2Credentials)
  | [] => none
  | id :: rest =>
    match kvGetAccount kv id with
    | some c => if c.expiry_date > now then some (id, c) else findFirstValid now kv rest
    | none => findFirstValid now kv rest

/-- Tail of `initializeAuth` once a selection `(accountId, credentials)`
is in hand: proactive refresh when expired, with fallback scan over the
remaining non-failed accounts on refresh failure. -/
def initializeAuthWith (w : World) (st : AuthState) (kv : KV) (accountId : String)
    (credentials : OAuth2Credentials) : InitOutcome :=
  if credentials.expiry_date < w.now then
    match w.refresh accountId with
    | some td =>
      let p := refreshAccountToken w.now accountId credentials.refresh_token td kv
      ⟨p.1, { st with selectedAccount := some accountId, selectedCredentials := some p.2 }, none⟩
    | none =>
      let allAccountIds := getAllAccountIds kv
      let q := getFailedAccounts w.today kv
      let availableIds := allAccountIds.filter
        (fun id => !(q.2.contains id) && !(id == accountId))
      match findFirstValid w.now q.1 availableIds with
      | some (id, c) =>
        ⟨q.1, { st with selectedAccount := some id, selectedCredentials := some c }, none⟩
      | none =>
        ⟨q.1, st, some ("No valid accounts available. Proactive refresh failed for " ++ accountId)⟩
  else
    ⟨kv, { st with selectedAccount := some accountId, selectedCredentials := some credentials }, none⟩

/-- Selection phase of `initializeAuth`: forced account or weighted
selection. -/
def initializeAuthSelect (w : World) (st : AuthState) (kv : KV) : InitOutcome :=
  match st.forcedAccount with
  | some f =>
    match kvGetAccount kv f with
    | none => ⟨kv, st, some ("Forced account " ++ f ++ " not found in KV storage")⟩
    | some c => initializeAuthWith w st kv f c
  | none =>
    let p := selectBestAccount w kv
    match p.2 with
    | none => ⟨p.1, st, some "No valid accounts available. All accounts may be failed or expired."⟩
    | some (id, c) => initializeAuthWith w st p.1 id c

/-- `initializeAuth`: reuse the current selection while it has more than
5 minutes left, otherwise select anew. -/
def initializeAuth (w : World) (st : AuthState) (kv : KV) : InitOutcome :=
  match st.selectedAccount, st.selectedCredentials with
  | some _, some c =>
    if mkRat (c.expiry_date - w.now) 60000 > 5 then ⟨kv, st, none⟩
    else initializeAuthSelect w st kv
  | _, _ => initializeAuthSelect w st kv

/-- Result of `switchAccount`. -/
structure SwitchOutcome where
  kv : KV
  state : AuthState
  switched : Bool
  deriving DecidableEq, Repr

/-- `switchAccount`: drop the current selection, re-run
`initializeAuth`, report whether an account is now selected (a thrown
selection error is caught and reported as `false`). -/
def switchAccount (w : World) (st : AuthState) (kv : KV) : SwitchOutcome :=
  let st0 := { st with selectedAccount := none, selectedCredentials := none }
  let r := initializeAuth w st0 kv
  match r.error with
  | none => ⟨r.kv, r.state, r.state.selectedAccount.isSome⟩
  | some _ => ⟨r.kv, r.state, false⟩

/-! ### `handleApiError` -/

/-- The `{shouldRetry, newAccount}` result of `handleApiError`
(`newAccount` absent in the source is modelled as `false`, matching JS
truthiness of `undefined`). -/
structure HandleResult where
  shouldRetry : Bool
  newAccount : Bool
  deriving DecidableEq, Repr

/-- Result of one `handleApiError` call. -/
structure HandleOutcome where
  kv : KV
  state : AuthState
  result : HandleResult
  deriving DecidableEq, Repr

/-- The Type-1 (401) branch: refresh-and-retry on the same account when
a refresh token is present and this is the first attempt; otherwise (or
on refresh failure, or when the reload after refresh finds nothing)
mark the account failed and request reselection. -/
def handleUnauthorized (w : World) (acc : String) (retryCount : Nat)
    (st : AuthState) (kv : KV) : HandleOutcome :=
  let step : HandleOutcome ⊕ KV :=
    match st.selectedCredentials with
    | some c =>
      if c.refresh_token ≠ "" && decide (retryCount = 0) then
        match w.refresh acc with
        | some td =>
          let p := refreshAccountToken w.now acc c.refresh_token td kv
          match kvGetAccount p.1 acc with
          | some refreshed =>
            Sum.inl ⟨p.1, { st with selectedCredentials := some refreshed }, ⟨true, false⟩⟩
          | none => Sum.inr p.1
        | none => Sum.inr kv
      else Sum.inr kv
    | none => Sum.inr kv
  match step with
  | Sum.inl r => r
  | Sum.inr kv' =>
    ⟨markAccountAsFailed w.today acc kv', st, ⟨decide (retryCount = 0), true⟩⟩

/-- `handleApiError`: classify the error message and decide retry /
reselect / registry updates per the four-branch policy of the source. -/
def handleApiError (w : World) (errorMessage : String) (retryCount : Nat)
    (st : AuthState) (kv : KV) : HandleOutcome :=
  match st.selectedAccount with
  | none => ⟨kv, st, ⟨false, false⟩⟩
  | some acc =>
    if isUnauthorizedError errorMessage then
      handleUnauthorized w acc retryCount st kv
    else if isQuotaError errorMessage then
      ⟨markAccountAsFailed w.today acc kv, st, ⟨decide (retryCount = 0), true⟩⟩
    else if isServerError errorMessage then
      ⟨kv, st, ⟨decide (retryCount = 0), true⟩⟩
    else if retryCount = 0 then ⟨kv, st, ⟨true, true⟩⟩
    else ⟨kv, st, ⟨false, false⟩⟩

/-! ### The request executor (`QwenAPIClient.chatCompletions`) -/

/-- Result of one iteration's try-block: `initializeAuth`, the
access-token check, then the provider call, whose outcome (success
value or thrown error message) is the oracle `provider`. -/
structure AttemptOutcome (α : Type) where
  state : AuthState
  kv : KV
  result : Except String α

/-- One try-block of the `chatCompletions` loop. -/
def chatAttempt {α : Type} (w : World) (provider : Except String α)
    (st : AuthState) (kv : KV) : AttemptOutcome α :=
  let r := initializeAuth w st kv
  match r.error with
  | some e => ⟨r.state, r.kv, Except.error e⟩
  | none =>
    match r.state.selectedCredentials with
    | none => ⟨r.state, r.kv, Except.error "Failed to obtain access token"⟩
    | some c =>
      if c.access_token = "" then ⟨r.state, r.kv, Except.error "Failed to obtain access token"⟩
      else ⟨r.state, r.kv, provider⟩

/-- Result of a whole `chatCompletions` call, together with the trace
of provider-attempt outcomes in order (one entry per executed
iteration of the retry loop). -/
structure ChatOutcome (α : Type) where
  state : AuthState
  kv : KV
  result : Except String α
  trace : List (Except String α)

/-- The retry loop of `chatCompletions`.  The source loops
`while (retryCount <= maxRetries)` with `maxRetries = 1`; the loop is
translated structurally on the remaining iteration budget
`gap = maxRetries + 1 - retryCount`.  `ws n` and `provider n` are the
world and the provider-call outcome seen by iteration `n`. -/
def chatCompletionsLoop {α : Type} (ws : Nat → World) (provider : Nat → Except String α) :
    Nat → Nat → AuthState → KV → ChatOutcome α
  | 0, _, st, kv => ⟨st, kv, Except.error "Maximum retries exceeded", []⟩
  | gap + 1, retryCount, st, kv =>
    let a := chatAttempt (ws retryCount) (provider retryCount) st kv
    match a.result with
    | Except.ok resp => ⟨a.state, a.kv, Except.ok resp, [Except.ok resp]⟩
    | Except.error e =>
      let hr := handleApiError (ws retryCount) e retryCount a.state a.kv
      if hr.result.shouldRetry then
        if hr.result.newAccount then
          let sw := switchAccount (ws retryCount) hr.state hr.kv
          if sw.switched then
            let nxt := chatCompletionsLoop ws provider gap (retryCount + 1) sw.state sw.kv
            ⟨nxt.state, nxt.kv, nxt.result, Except.error e :: nxt.trace⟩
          else
            ⟨sw.state, sw.kv, Except.error "No alternative accounts available for retry",
              [Except.error e]⟩
        else
          let nxt := chatCompletionsLoop ws provider gap (retryCount + 1) hr.state hr.kv
          ⟨nxt.state, nxt.kv, nxt.result, Except.error e :: nxt.trace⟩
      else ⟨hr.state, hr.kv, Except.error e, [Except.error e]⟩

/-- `chatCompletions`: run the retry loop from `retryCount = 0` with
`maxRetries = 1`. -/
def chatCompletions {α : Type} (ws : Nat → World) (provider : Nat → Except String α)
    (st : AuthState) (kv : KV) : ChatOutcome α :=
  chatCompletionsLoop ws provider 2 0 st kv

/-! ### API endpoint resolution (`QwenAPIClient.getApiEndpoint`) -/

/-- `QWEN_API_BASE_URL` from `src/config.ts`. -/
def QWEN_API_BASE_URL : String := "https://dashscope.aliyuncs.com/compatible-mode/v1"

/-- `getApiEndpoint`: use the credential's `resource_url` (normalised to
an `https://.../v1` URL) when present and non-empty, else the default
endpoint. -/
def getApiEndpoint (credentials : Option OAuth2Credentials) : String :=
  match credentials with
  | some c =>
    match c.resource_url with
    | some url =>
      if url = "" then QWEN_API_BASE_URL
      else
        let e1 := if url.startsWith "http" then url else "https://" ++ url
        if e1.endsWith "/v1" then e1
        else if e1.endsWith "/" then e1 ++ "v1" else e1 ++ "/v1"
    | none => QWEN_API_BASE_URL
  | none => QWEN_API_BASE_URL

/-! ### The SSE stream relay (`QwenAPIClient.processSSEStream`)

The upstream byte stream is modelled, after text decoding, as a list of
read results: either a decoded text chunk (`List Char`, the source's
chunk boundaries may fall anywhere) or a thrown read error.  `JSON.parse`
of a payload plus the field accesses on the parsed value are modelled by
an arbitrary parse oracle `parse : List Char → Option StreamChunk`
(`none` = `JSON.parse` threw).  Output writes are abstracted one level
above the byte encoding: a normalised data chunk, the synthetic
error-carrying chunk of the catch handler, or the `data: [DONE]`
sentinel; every return path of the source closes the writer, so the
relay is a total function into a finite output list. -/

/-- One result of `reader.read()`. -/
inductive ReadEvent
  | chunk (s : List Char)
  | readError (msg : String)
  deriving DecidableEq, Repr

/-- The fields the relay reads off a parsed upstream payload
(`none` = the field is absent in the JSON). -/
structure StreamChunk where
  id : Option String
  created : Option Int
  model : Option String
  choices : Option (List String)
  deriving DecidableEq, Repr

/-- The normalised envelope written out (`formattedChunk` in the
source); the `object` field is the constant `"chat.completion.chunk"`
and is left implicit. -/
structure FormattedChunk where
  id : String
  created : Int
  model : String
  choices : List String
  deriving DecidableEq, Repr

/-- One write to the output stream. -/
inductive OutEvent
  | chunk (c : FormattedChunk)
  | errorChunk (msg : String)
  | done
  deriving DecidableEq, Repr

/-- `e` is a normal data chunk read. -/
def isChunkRead : ReadEvent → Bool
  | ReadEvent.chunk _ => true
  | ReadEvent.readError _ => false

/-- `e` is the terminal sentinel. -/
def isDoneEvent : OutEvent → Bool
  | OutEvent.done => true
  | _ => false

/-- `e` is the synthetic error-carrying chunk. -/
def isErrorChunkEvent : OutEvent → Bool
  | OutEvent.errorChunk _ => true
  | _ => false

/-- Build `formattedChunk`: fill missing `id`, `created`, `model` from
`crypto.randomUUID()`, `Date.now()/1000` and the request model
(JS `||`, so empty string and `0` also fall back). -/
def formatChunk (uuid : String) (now : Int) (model : String) (c : StreamChunk) :
    FormattedChunk :=
  { id := jsOrStr c.id ("chatcmpl-" ++ uuid)
    created := jsOrInt c.created now
    model := jsOrStr c.model model
    choices := c.choices.getD [] }

/-- `buffer.split('\n')` on character lists. -/
def splitNl : List Char → List (List Char)
  | [] => [[]]
  | c :: rest =>
    match splitNl rest with
    | [] => [[]]
    | l :: ls => if c = '\n' then [] :: l :: ls else (c :: l) :: ls

/-- The `for (const line of lines)` body over a batch of complete
lines: skipping blank lines, handling `data: ` lines, short-circuiting
on `[DONE]` (second component `true` = the relay returned). -/
def runLines (parse : List Char → Option StreamChunk) (uuid : String) (now : Int)
    (model : String) : List (List Char) → List OutEvent × Bool
  | [] => ([], false)
  | line :: rest =>
    if line.all Char.isWhitespace then runLines parse uuid now model rest
    else if ("data: ".toList).isPrefixOf line then
      let data := line.drop 6
      if data = "[DONE]".toList then ([OutEvent.done], true)
      else
        match parse data with
        | some c =>
          let p := runLines parse uuid now model rest
          (OutEvent.chunk (formatChunk uuid now model c) :: p.1, p.2)
        | none => runLines parse uuid now model rest
    else runLines parse uuid now model rest

/-- `processSSEStream`: thread the line buffer through the read loop;
on clean end of stream emit the sentinel and close; on a read error the
catch handler emits one synthetic error chunk plus the sentinel and
closes. -/
def processSSEStream (parse : List Char → Option StreamChunk) (uuid : String) (now : Int)
    (model : String) : List Char → List ReadEvent → List OutEvent
  | _, [] => [OutEvent.done]
  | buffer, ReadEvent.chunk s :: rest =>
    let lines := splitNl (buffer ++ s)
    let newBuffer := lines.getLastD []
    let p := runLines parse uuid now model lines.dropLast
    if p.2 then p.1
    else p.1 ++ processSSEStream parse uuid now model newBuffer rest
  | _, ReadEvent.readError msg :: _ => [OutEvent.errorChunk msg, OutEvent.done]

/-! ### Spec-side reference definitions (for the refinement claims)

These definitions are written from the words of the specification, to
be compared against the source-derived definitions above. -/

/-- The complete (newline-terminated) lines of a text, with the
trailing unterminated fragment returned separately.  Used to state
chunk-boundary independence. -/
def splitNlAcc (acc : List Char) : List Char → List (List Char) × List Char
  | [] => ([], acc)
  | c :: rest =>
    if c = '\n' then
      let p := splitNlAcc [] rest
      (acc :: p.1, p.2)
    else splitNlAcc (acc ++ [c]) rest

/-- Spec §4.7, per complete line: blank lines are ignored; a `data: `
line with payload `[DONE]` terminates the relay with the terminal
sentinel; a payload that parses is re-emitted once as a normalised
chunk; a payload that fails to parse is dropped silently; any other
line is ignored; at the end of the lines the stream is terminated by
the sentinel. -/
def specLineRelay (parse : List Char → Option StreamChunk) (uuid : String) (now : Int)
    (model : String) : List (List Char) → List OutEvent
  | [] => [OutEvent.done]
  | line :: rest =>
    if line.all Char.isWhitespace then specLineRelay parse uuid now model rest
    else if ("data: ".toList).isPrefixOf line then
      let payload := line.drop 6
      if payload = "[DONE]".toList then [OutEvent.done]
      else
        match parse payload with
        | some c => OutEvent.chunk (formatChunk uuid now model c) :: specLineRelay parse uuid now model rest
        | none => specLineRelay parse uuid now model rest
    else specLineRelay parse uuid now model rest

/-- Prepend a fragment onto the first line of a line list. -/
def consFirst (x : List Char) : List (List Char) → List (List Char)
  | [] => [x]
  | l :: ls => (x ++ l) :: ls

/-- Spec §4.4's bucket table, top-to-bottom, first match wins, with
the probabilities as the spec writes them (`0.10`, `0.85`, ...). -/
def specBucketProbability (minutesLeft maxFreshness : Rat) : Rat :=
  if minutesLeft < 0 then mkRat 10 100
  else if minutesLeft = maxFreshness then mkRat 85 100
  else if minutesLeft > 30 then mkRat 70 100
  else if minutesLeft > 20 then mkRat 50 100
  else if minutesLeft > 10 then mkRat 30 100
  else if minutesLeft > 5 then mkRat 10 100
  else mkRat 5 100

/-- Inclusive prefix sums of a (×100-scaled) probability list. -/
def prefixSums : List Nat → List Nat
  | [] => []
  | p :: rest => p :: (prefixSums rest).map (fun q => p + q)

/-- Spec §4.4 step 5: the first candidate, in enumeration order, whose
cumulative probability meets or exceeds the draw. -/
def specCumulativeSelect (random : Rat) (l : List WeightedAccount) : Option WeightedAccount :=
  ((l.zip (prefixSums (l.map (fun a => a.probability)))).find?
    (fun pc => decide (random ≤ mkRat ((pc.2 : Nat) : Int) 100))).map Prod.fst

/-- Concrete store for the proactive-refresh fallback scenario:
`a0` expired, `a1` barely valid (4 minutes left at time 0), `a2`
freshest (100 minutes left). -/
def c3kv : KV :=
  ⟨[("a0", ⟨"t0", "r0", "", "Bearer", "", -600000, none⟩),
    ("a1", ⟨"t1", "r1", "", "Bearer", "", 240000, none⟩),
    ("a2", ⟨"t2", "r2", "", "Bearer", "", 6000000, none⟩)],
   some "", some "2025-01-01"⟩

/-- Wall clock 0, current UTC date matching the stored reset date, draw
0.05, every token-endpoint call failing. -/
def c3world : World := ⟨0, "2025-01-01", mkRat 1 20, fun _ => none⟩

/-- Fresh auth manager state. -/
def c3state : AuthState := ⟨none, none, none⟩

/-! ## Helper lemmas -/

theorem find?_map_overwrite (l : List (String × OAuth2Credentials)) (id : String)
    (c : OAuth2Credentials) (h : (l.find? (fun p => p.1 = id)).isSome = true) :
    ((l.map (fun p => if p.1 = id then (id, c) else p)).find? (fun p => p.1 = id)) =
      some (id, c) := by
  induction l with
  | nil => simp at h
  | cons hd tl ih =>
    by_cases hh : hd.1 = id
    · rw [List.map_cons, if_pos hh]
      exact List.find?_cons_of_pos _ (by simp)
    · rw [List.find?_cons_of_neg _ (by simp [hh])] at h
      rw [List.map_cons, if_neg hh, List.find?_cons_of_neg _ (by simp [hh])]
      exact ih h

theorem kvGet_kvPut_same (kv : KV) (id : String) (c : OAuth2Credentials) :
    kvGetAccount (kvPutAccount kv id c) id = some c := by
  unfold kvGetAccount kvPutAccount
  by_cases h : (kv.accounts.find? (fun p => p.1 = id)).isSome = true
  · simp [h, find?_map_overwrite kv.accounts id c h]
  · have h2 : kv.accounts.find? (fun p => decide (p.1 = id)) = none :=
      Option.not_isSome_iff_eq_none.mp h
    simp [h, h2, List.find?_append, List.find?]

/-! ## C5: probability bucket table -/

/-- C5: For every candidate, the assigned probability follows the
spec's bucket table evaluated top-to-bottom with the first matching
rule winning; in particular an expired candidate receives 0.10 even
when its `minutesLeft` equals `maxFreshness` (the expired rule shadows
the freshest rule), while a non-expired candidate at `maxFreshness`
receives 0.85. -/
theorem c5_probability_table (m maxF : Rat) :
    mkRat (accountProbability m maxF) 100 = specBucketProbability m maxF ∧
    (m < 0 → mkRat (accountProbability m maxF) 100 = mkRat 10 100) ∧
    (¬ m < 0 → m = maxF → mkRat (accountProbability m maxF) 100 = mkRat 85 100) := by
  refine ⟨?_, ?_, ?_⟩
  · unfold accountProbability specBucketProbability
    split <;> [skip; split] <;> [rfl; rfl; skip]
    split <;> [rfl; split] <;> [rfl; split] <;> [rfl; split] <;> rfl
  · intro h; simp [accountProbability, h]
  · intro h he; subst he; simp [accountProbability, h]

/-- C5 witness: an expired candidate that is also the freshest gets
0.10, and a non-expired freshest candidate gets 0.85. -/
theorem c5_probability_table_witness :
    mkRat (accountProbability (-5) (-5)) 100 = mkRat 10 100 ∧
    mkRat (accountProbability 50 50) 100 = mkRat 85 100 :=
  ⟨(c5_probability_table (-5) (-5)).2.1 (by decide),
   (c5_probability_table 50 50).2.2 (by decide) rfl⟩

/-! ## C7: token refresh record -/

/-- C7: a successful refresh persists and returns a record whose access
token is the provider's new token, whose refresh token is the
provider's when one (non-empty) was returned and the prior one
otherwise, and whose `expiry_date` is the refresh time plus
`expires_in` (seconds, stored in milliseconds); the record is written
under that account's key. -/
theorem c7_refresh_record (now : Int) (acc rt : String) (td : TokenData) (kv : KV) :
    (refreshAccountToken now acc rt td kv).2.access_token = td.access_token ∧
    (∀ r, td.refresh_token = some r → r ≠ "" →
      (refreshAccountToken now acc rt td kv).2.refresh_token = r) ∧
    ((td.refresh_token = none ∨ td.refresh_token = some "") →
      (refreshAccountToken now acc rt td kv).2.refresh_token = rt) ∧
    (refreshAccountToken now acc rt td kv).2.expiry_date = now + td.expires_in * 1000 ∧
    kvGetAccount (refreshAccountToken now acc rt td kv).1 acc =
      some (refreshAccountToken now acc rt td kv).2 := by
  refine ⟨rfl, ?_, ?_, rfl, ?_⟩
  · intro r hr hne
    simp [refreshAccountToken, jsOrStr, hr, hne]
  · rintro (h | h) <;> simp [refreshAccountToken, jsOrStr, h]
  · exact kvGet_kvPut_same kv acc _

/-- C7 witness at a concrete refresh. -/
theorem c7_refresh_record_witness :
    (refreshAccountToken 1000 "a" "oldRT"
        ⟨"newAT", some "newRT", none, none, none, 3600⟩ ⟨[], none, none⟩).2.refresh_token
      = "newRT" ∧
    (refreshAccountToken 1000 "a" "oldRT"
        ⟨"newAT", none, none, none, none, 3600⟩ ⟨[], none, none⟩).2.refresh_token
      = "oldRT" ∧
    (refreshAccountToken 1000 "a" "oldRT"
        ⟨"newAT", some "newRT", none, none, none, 3600⟩ ⟨[], none, none⟩).2.expiry_date
      = 1000 + 3600 * 1000 :=
  ⟨(c7_refresh_record 1000 "a" "oldRT" ⟨"newAT", some "newRT", none, none, none, 3600⟩
      ⟨[], none, none⟩).2.1 "newRT" rfl (by decide),
   (c7_refresh_record 1000 "a" "oldRT" ⟨"newAT", none, none, none, none, 3600⟩
      ⟨[], none, none⟩).2.2.1 (Or.inl rfl),
   (c7_refresh_record 1000 "a" "oldRT" ⟨"newAT", some "newRT", none, none, none, 3600⟩
      ⟨[], none, none⟩).2.2.2.1⟩

/-! ## C8: lazy daily reset of the failure registry -/

/-- C8: before every read, when the stored reset date differs from the
current UTC date the failed set is cleared and the date stamped before
the read's result is produced; performing the reset twice on the same
day equals performing it once. -/
theorem c8_daily_reset (today : String) (kv : KV) :
    (kv.lastResetDate ≠ some today →
      (getFailedAccounts today kv).2 = [] ∧
      (getFailedAccounts today kv).1.failedAccounts = some "" ∧
      (getFailedAccounts today kv).1.lastResetDate = some today) ∧
    checkAndResetFailedAccounts today (checkAndResetFailedAccounts today kv) =
      checkAndResetFailedAccounts today kv := by
  constructor
  · intro h
    have h1 : checkAndResetFailedAccounts today kv =
        { kv with failedAccounts := some "", lastResetDate := some today } := by
      unfold checkAndResetFailedAccounts
      rw [if_pos h]
    refine ⟨?_, ?_, ?_⟩
    · simp [getFailedAccounts, h1]
      decide
    · simp [getFailedAccounts, h1]
    · simp [getFailedAccounts, h1]
  · unfold checkAndResetFailedAccounts
    by_cases h : kv.lastResetDate = some today <;> simp [h]

/-- C8 witness: stale date plus non-empty set is cleared on read, and
the reset is idempotent on that store. -/
theorem c8_daily_reset_witness :
    (getFailedAccounts "2025-01-02" ⟨[], some "a,b", some "2025-01-01"⟩).2 = [] ∧
    checkAndResetFailedAccounts "2025-01-02"
        (checkAndResetFailedAccounts "2025-01-02" ⟨[], some "a,b", some "2025-01-01"⟩) =
      checkAndResetFailedAccounts "2025-01-02" ⟨[], some "a,b", some "2025-01-01"⟩ :=
  ⟨((c8_daily_reset "2025-01-02" ⟨[], some "a,b", some "2025-01-01"⟩).1 (by decide)).1,
   (c8_daily_reset "2025-01-02" ⟨[], some "a,b", some "2025-01-01"⟩).2⟩

/-! ## C10: refresh drops the custom endpoint -/

/-- C10: after a successful refresh of an account whose stored
credential carried `resource_url`, the persisted record has no
`resource_url` (the record is built from token-endpoint fields only),
so endpoint resolution for it yields the default API endpoint. -/
theorem c10_refresh_drops_resource_url (now : Int) (acc rt u : String) (td : TokenData)
    (kv : KV) (old : OAuth2Credentials)
    (_hold : kvGetAccount kv acc = some old) (_hu : old.resource_url = some u) :
    (refreshAccountToken now acc rt td kv).2.resource_url = none ∧
    kvGetAccount (refreshAccountToken now acc rt td kv).1 acc =
      some (refreshAccountToken now acc rt td kv).2 ∧
    getApiEndpoint (some (refreshAccountToken now acc rt td kv).2) = QWEN_API_BASE_URL := by
  exact ⟨rfl, kvGet_kvPut_same kv acc _, rfl⟩

/-- C10 witness: refreshing an account stored with a custom
`resource_url` persists a record without one, resolved to the default
endpoint. -/
theorem c10_refresh_drops_resource_url_witness :
    (refreshAccountToken 0 "a" "rt" ⟨"at", none, none, none, none, 3600⟩
        ⟨[("a", ⟨"t", "r", "", "Bearer", "", 5, some "custom.host"⟩)], none, none⟩).2.resource_url
      = none ∧
    getApiEndpoint (some (refreshAccountToken 0 "a" "rt" ⟨"at", none, none, none, none, 3600⟩
        ⟨[("a", ⟨"t", "r", "", "Bearer", "", 5, some "custom.host"⟩)], none, none⟩).2)
      = QWEN_API_BASE_URL :=
  ⟨(c10_refresh_drops_resource_url 0 "a" "rt" "custom.host"
      ⟨"at", none, none, none, none, 3600⟩
      ⟨[("a", ⟨"t", "r", "", "Bearer", "", 5, some "custom.host"⟩)], none, none⟩
      ⟨"t", "r", "", "Bearer", "", 5, some "custom.host"⟩ (by decide) rfl).1,
   (c10_refresh_drops_resource_url 0 "a" "rt" "custom.host"
      ⟨"at", none, none, none, none, 3600⟩
      ⟨[("a", ⟨"t", "r", "", "Bearer", "", 5, some "custom.host"⟩)], none, none⟩
      ⟨"t", "r", "", "Bearer", "", 5, some "custom.host"⟩ (by decide) rfl).2.2⟩

/-! ## C6: cumulative weighted draw -/

theorem mkRat_le_mkRat_100 {x y : Nat} (h : x ≤ y) :
    mkRat (x : Int) 100 ≤ mkRat (y : Int) 100 := by
  rw [Rat.mkRat_eq_div, Rat.mkRat_eq_div]
  have hc : ((x : Int) : ℚ) ≤ ((y : Int) : ℚ) := by exact_mod_cast h
  have h100 : (0 : ℚ) < ((100 : Nat) : ℚ) := by norm_num
  exact (div_le_div_iff_of_pos_right h100).mpr hc

theorem selectWeighted_eq_find (random : Rat) (l : List WeightedAccount) : ∀ cum : Nat,
    selectWeighted random cum l =
      ((l.zip ((prefixSums (l.map (fun a => a.probability))).map (fun q => cum + q))).find?
        (fun pc => decide (random ≤ mkRat ((pc.2 : Nat) : Int) 100))).map Prod.fst := by
  induction l with
  | nil => intro cum; simp [selectWeighted, prefixSums]
  | cons a rest ih =>
    intro cum
    have hm : ((prefixSums (rest.map (fun a => a.probability))).map
          (fun q => a.probability + q)).map (fun q => cum + q) =
        (prefixSums (rest.map (fun a => a.probability))).map
          (fun q => (cum + a.probability) + q) := by
      rw [List.map_map]
      apply List.map_congr_left
      intro q _
      simp [Function.comp, Nat.add_assoc]
    by_cases h : random ≤ mkRat ((cum + a.probability : Nat) : Int) 100
    · simp only [selectWeighted, if_pos h, List.map_cons, prefixSums, List.zip_cons_cons,
        List.find?]
      rw [decide_eq_true h]
      rfl
    · simp only [selectWeighted, if_neg h, List.map_cons, prefixSums, List.zip_cons_cons,
        List.find?]
      rw [decide_eq_false h, hm]
      exact ih (cum + a.probability)

theorem selectWeighted_none_of_gt_sum (random : Rat) (l : List WeightedAccount) : ∀ cum : Nat,
    random > mkRat ((cum + (l.map (fun a => a.probability)).sum : Nat) : Int) 100 →
    selectWeighted random cum l = none := by
  induction l with
  | nil => intro cum _; rfl
  | cons a rest ih =>
    intro cum hgt
    rw [List.map_cons, List.sum_cons] at hgt
    have hle : mkRat ((cum + a.probability : Nat) : Int) 100 ≤
        mkRat ((cum + (a.probability + (rest.map (fun a => a.probability)).sum) : Nat) : Int)
          100 :=
      mkRat_le_mkRat_100 (by omega)
    have hnot : ¬ random ≤ mkRat ((cum + a.probability : Nat) : Int) 100 := by
      intro hc
      exact absurd (hc.trans hle) (not_le.mpr hgt)
    simp only [selectWeighted, if_neg hnot]
    apply ih
    have hr : (cum + a.probability) + (rest.map (fun a => a.probability)).sum =
        cum + (a.probability + (rest.map (fun a => a.probability)).sum) := by omega
    rw [hr]
    exact hgt

/-- C6: the draw walks the candidates in enumeration order and selects
the first whose cumulative probability meets or exceeds the draw
(equal to the spec's zip-with-prefix-sums formulation); when the draw
exceeds the sum of all probabilities, the first candidate in
enumeration order is the fallback. -/
theorem c6_cumulative_walk (random : Rat) (l : List WeightedAccount) :
    selectWeighted random 0 l = specCumulativeSelect random l ∧
    (random > mkRat (((l.map (fun a => a.probability)).sum : Nat) : Int) 100 →
      pickFromWeighted random l = l.head?) := by
  constructor
  · rw [selectWeighted_eq_find random l 0]
    unfold specCumulativeSelect
    congr 2
    simp
  · intro h
    have hz : random > mkRat ((0 + (l.map (fun a => a.probability)).sum : Nat) : Int) 100 := by
      rw [Nat.zero_add]; exact h
    have hnone := selectWeighted_none_of_gt_sum random l 0 hz
    simp [pickFromWeighted, hnone]

/-- C6 witness: a draw above the total probability mass falls back to
the first candidate. -/
theorem c6_cumulative_walk_witness :
    pickFromWeighted 2
        [⟨"x", ⟨"t", "r", "", "", "", 0, none⟩, mkRat 1 1, 10⟩,
         ⟨"y", ⟨"t", "r", "", "", "", 0, none⟩, mkRat 2 1, 5⟩] =
      some ⟨"x", ⟨"t", "r", "", "", "", 0, none⟩, mkRat 1 1, 10⟩ :=
  (c6_cumulative_walk 2
      [⟨"x", ⟨"t", "r", "", "", "", 0, none⟩, mkRat 1 1, 10⟩,
       ⟨"y", ⟨"t", "r", "", "", "", 0, none⟩, mkRat 2 1, 5⟩]).2 (by decide)

/-! ## C4: `handleApiError` decision table -/

/-- C4: the error handler's decision table.  Unauthorized at attempt 0
with a (non-empty) refresh token: on token-endpoint success the result
is `{retry: true, forceReselect: false}` with the same account's
refreshed credentials installed; on refresh failure the account is
marked failed and the result is `{retry: attemptNumber == 0,
forceReselect: true}`, likewise with no refresh token.  QuotaExceeded
marks the account failed with that same result.  ProviderUnavailable
(500/502/504) yields that result with no change at all to the store. -/
theorem c4_error_decision_table (w : World) (msg : String) (rc : Nat) (st : AuthState)
    (kv : KV) (acc : String) (c : OAuth2Credentials)
    (hacc : st.selectedAccount = some acc) (hcred : st.selectedCredentials = some c) :
    (∀ td, isUnauthorizedError msg = true → c.refresh_token ≠ "" → rc = 0 →
        w.refresh acc = some td →
      handleApiError w msg rc st kv =
        ⟨(refreshAccountToken w.now acc c.refresh_token td kv).1,
         { st with selectedCredentials := some (refreshAccountToken w.now acc c.refresh_token td kv).2 },
         ⟨true, false⟩⟩) ∧
    (isUnauthorizedError msg = true → c.refresh_token ≠ "" → rc = 0 →
        w.refresh acc = none →
      handleApiError w msg rc st kv =
        ⟨markAccountAsFailed w.today acc kv, st, ⟨true, true⟩⟩) ∧
    (isUnauthorizedError msg = true → c.refresh_token = "" →
      handleApiError w msg rc st kv =
        ⟨markAccountAsFailed w.today acc kv, st, ⟨decide (rc = 0), true⟩⟩) ∧
    (isUnauthorizedError msg = false → isQuotaError msg = true →
      handleApiError w msg rc st kv =
        ⟨markAccountAsFailed w.today acc kv, st, ⟨decide (rc = 0), true⟩⟩) ∧
    (isUnauthorizedError msg = false → isQuotaError msg = false →
        isServerError msg = true →
      handleApiError w msg rc st kv = ⟨kv, st, ⟨decide (rc = 0), true⟩⟩) := by
  refine ⟨?_, ?_, ?_, ?_, ?_⟩
  · intro td hu hrt hrc htd
    subst hrc
    simp [handleApiError, handleUnauthorized, hacc, hcred, hu, hrt, htd,
      refreshAccountToken, kvGet_kvPut_same]
  · intro hu hrt hrc htd
    subst hrc
    simp [handleApiError, handleUnauthorized, hacc, hcred, hu, hrt, htd]
  · intro hu hrt
    simp [handleApiError, handleUnauthorized, hacc, hcred, hu, hrt]
  · intro hu hq
    simp [handleApiError, hacc, hu, hq]
  · intro hu hq hs
    simp [handleApiError, hacc, hu, hq, hs]

/-- C4 witness: a 429 error at attempt 0 marks the selected account
failed and requests a reselect-and-retry. -/
theorem c4_error_decision_table_witness :
    handleApiError ⟨0, "2025-01-01", 0, fun _ => none⟩ "Qwen API error: 429 - quota" 0
        ⟨some "a", some ⟨"t", "r", "", "Bearer", "", 0, none⟩, none⟩ ⟨[], some "", none⟩ =
      ⟨markAccountAsFailed "2025-01-01" "a" ⟨[], some "", none⟩,
       ⟨some "a", some ⟨"t", "r", "", "Bearer", "", 0, none⟩, none⟩, ⟨true, true⟩⟩ :=
  (c4_error_decision_table ⟨0, "2025-01-01", 0, fun _ => none⟩ "Qwen API error: 429 - quota" 0
      ⟨some "a", some ⟨"t", "r", "", "Bearer", "", 0, none⟩, none⟩ ⟨[], some "", none⟩
      "a" ⟨"t", "r", "", "Bearer", "", 0, none⟩ rfl rfl).2.2.2.1 (by decide) (by decide)

/-! ## C1: at most one retry per logical request -/

theorem handleApiError_retry_false (w : World) (msg : String) (rc : Nat) (hrc : rc ≠ 0) :
    ∀ (st : AuthState) (kv : KV),
    (handleApiError w msg rc st kv).result.shouldRetry = false := by
  intro st kv
  have hdec : decide (rc = 0) = false := decide_eq_false hrc
  unfold handleApiError handleUnauthorized
  cases st.selectedAccount with
  | none => rfl
  | some acc =>
    cases st.selectedCredentials with
    | none =>
      split
      · simp [hdec]
      · split
        · simp [hdec]
        · split <;> simp [hdec, hrc]
          split <;> rfl
    | some c =>
      split
      · simp [hdec]
      · split
        · simp [hdec]
        · split <;> simp [hdec, hrc]
          split <;> rfl

/-- C1: the executor performs at most two provider-call attempts; once
`attemptNumber >= 1` the error handler never asks for a retry, whatever
the error; and when both attempts fail the second attempt's error is
surfaced unchanged. -/
theorem c1_retry_bound {α : Type} (ws : Nat → World) (provider : Nat → Except String α)
    (st : AuthState) (kv : KV) :
    (chatCompletions ws provider st kv).trace.length ≤ 2 ∧
    (∀ e, (chatCompletions ws provider st kv).trace.length = 2 →
      (chatCompletions ws provider st kv).trace.getLast? = some (Except.error e) →
      (chatCompletions ws provider st kv).result = Except.error e) ∧
    (∀ w2 msg rc st2 kv2, 1 ≤ rc →
      (handleApiError w2 msg rc st2 kv2).result.shouldRetry = false) := by
  have hthird : ∀ (w2 : World) (msg : String) (rc : Nat) (st2 : AuthState) (kv2 : KV),
      1 ≤ rc → (handleApiError w2 msg rc st2 kv2).result.shouldRetry = false :=
    fun w2 msg rc st2 kv2 h1 => handleApiError_retry_false w2 msg rc (by omega) st2 kv2
  unfold chatCompletions
  cases h : (chatAttempt (ws 0) (provider 0) st kv).result with
  | ok r =>
    refine ⟨?_, ?_, hthird⟩
    · simp [chatCompletionsLoop, h]
    · intro e hlen hlast
      simp [chatCompletionsLoop, h] at hlen
  | error e =>
    cases hsr : (handleApiError (ws 0) e 0 (chatAttempt (ws 0) (provider 0) st kv).state
        (chatAttempt (ws 0) (provider 0) st kv).kv).result.shouldRetry with
    | false =>
      refine ⟨?_, ?_, hthird⟩
      · simp [chatCompletionsLoop, h, hsr]
      · intro e2 hlen hlast
        simp [chatCompletionsLoop, h, hsr] at hlen
    | true =>
      cases hna : (handleApiError (ws 0) e 0 (chatAttempt (ws 0) (provider 0) st kv).state
          (chatAttempt (ws 0) (provider 0) st kv).kv).result.newAccount with
      | false =>
        cases h2 : (chatAttempt (ws 1) (provider 1)
            (handleApiError (ws 0) e 0 (chatAttempt (ws 0) (provider 0) st kv).state
              (chatAttempt (ws 0) (provider 0) st kv).kv).state
            (handleApiError (ws 0) e 0 (chatAttempt (ws 0) (provider 0) st kv).state
              (chatAttempt (ws 0) (provider 0) st kv).kv).kv).result with
        | ok r =>
          refine ⟨?_, ?_, hthird⟩
          · simp [chatCompletionsLoop, h, hsr, hna, h2]
          · intro e2 hlen hlast
            simp [chatCompletionsLoop, h, hsr, hna, h2] at hlast
        | error e2 =>
          have hr2 := handleApiError_retry_false (ws 1) e2 1 (by omega)
          refine ⟨?_, ?_, hthird⟩
          · simp [chatCompletionsLoop, h, hsr, hna, h2, hr2]
          · intro e3 hlen hlast
            simp [chatCompletionsLoop, h, hsr, hna, h2, hr2] at hlast ⊢
            exact hlast
      | true =>
        cases hsw : (switchAccount (ws 0)
            (handleApiError (ws 0) e 0 (chatAttempt (ws 0) (provider 0) st kv).state
              (chatAttempt (ws 0) (provider 0) st kv).kv).state
            (handleApiError (ws 0) e 0 (chatAttempt (ws 0) (provider 0) st kv).state
              (chatAttempt (ws 0) (provider 0) st kv).kv).kv).switched with
        | false =>
          refine ⟨?_, ?_, hthird⟩
          · simp [chatCompletionsLoop, h, hsr, hna, hsw]
          · intro e2 hlen hlast
            simp [chatCompletionsLoop, h, hsr, hna, hsw] at hlen
        | true =>
          cases h2 : (chatAttempt (ws 1) (provider 1)
              (switchAccount (ws 0)
                (handleApiError (ws 0) e 0 (chatAttempt (ws 0) (provider 0) st kv).state
                  (chatAttempt (ws 0) (provider 0) st kv).kv).state
                (handleApiError (ws 0) e 0 (chatAttempt (ws 0) (provider 0) st kv).state
                  (chatAttempt (ws 0) (provider 0) st kv).kv).kv).state
              (switchAccount (ws 0)
                (handleApiError (ws 0) e 0 (chatAttempt (ws 0) (provider 0) st kv).state
                  (chatAttempt (ws 0) (provider 0) st kv).kv).state
                (handleApiError (ws 0) e 0 (chatAttempt (ws 0) (provider 0) st kv).state
                  (chatAttempt (ws 0) (provider 0) st kv).kv).kv).kv).result with
          | ok r =>
            refine ⟨?_, ?_, hthird⟩
            · simp [chatCompletionsLoop, h, hsr, hna, hsw, h2]
            · intro e2 hlen hlast
              simp [chatCompletionsLoop, h, hsr, hna, hsw, h2] at hlast
          | error e2 =>
            have hr2 := handleApiError_retry_false (ws 1) e2 1 (by omega)
            refine ⟨?_, ?_, hthird⟩
            · simp [chatCompletionsLoop, h, hsr, hna, hsw, h2, hr2]
            · intro e3 hlen hlast
              simp [chatCompletionsLoop, h, hsr, hna, hsw, h2, hr2] at hlast ⊢
              exact hlast

/-- C1 witness: with a provider failing 429 on both attempts over a
two-account pool, the executor performs exactly two attempts and
surfaces the second error unchanged. -/
theorem c1_retry_bound_witness :
    (@chatCompletions Unit
        (fun _ => ⟨0, "2025-01-01", mkRat 1 20, fun _ => none⟩)
        (fun n => if n = 0 then Except.error "Qwen API error: 429 - x"
                  else Except.error "Qwen API error: 429 - y")
        ⟨none, none, none⟩
        ⟨[("a", ⟨"ta", "ra", "", "Bearer", "", 6000000, none⟩),
          ("b", ⟨"tb", "rb", "", "Bearer", "", 6000000, none⟩)],
         some "", some "2025-01-01"⟩).result
      = Except.error "Qwen API error: 429 - y" :=
  (c1_retry_bound
      (fun _ => ⟨0, "2025-01-01", mkRat 1 20, fun _ => none⟩)
      (fun n => if n = 0 then Except.error "Qwen API error: 429 - x"
                else Except.error "Qwen API error: 429 - y")
      ⟨none, none, none⟩
      ⟨[("a", ⟨"ta", "ra", "", "Bearer", "", 6000000, none⟩),
        ("b", ⟨"tb", "rb", "", "Bearer", "", 6000000, none⟩)],
       some "", some "2025-01-01"⟩).2.1
    "Qwen API error: 429 - y" (by rfl) (by rfl)

/-! ## C3: expired selection, failed proactive refresh -/

/-- C3 (code evaluation): with `a0` expired and selected (draw 0.05
hits its 0.10 bucket), every token-endpoint call failing, and both
`a1` (4 minutes left) and `a2` (100 minutes left) available, the
fallback scan selects `a1` — the first non-expired account in
enumeration order — even though `a2` is the freshest; no account is
marked failed and no error is thrown. -/
theorem c3_fallback_behavior :
    (initializeAuth c3world c3state c3kv).state.selectedAccount = some "a1" ∧
    (initializeAuth c3world c3state c3kv).error = none ∧
    (initializeAuth c3world c3state c3kv).kv.failedAccounts = some "" ∧
    (kvGetAccount c3kv "a1").map (fun c => c.expiry_date) = some 240000 ∧
    (kvGetAccount c3kv "a2").map (fun c => c.expiry_date) = some 6000000 := by
  refine ⟨?_, ?_, ?_, ?_, ?_⟩ <;> decide

/-! ## Stream relay lemmas -/

theorem splitNl_ne_nil (l : List Char) : splitNl l ≠ [] := by
  cases l with
  | nil => simp [splitNl]
  | cons c rest =>
    simp only [splitNl]
    cases splitNl rest with
    | nil => simp
    | cons a as =>
      by_cases hc : c = '\n' <;> simp [hc]

theorem splitNlAcc_spec (l : List Char) : ∀ acc,
    (splitNlAcc acc l).1 ++ [(splitNlAcc acc l).2] = consFirst acc (splitNl l) := by
  induction l with
  | nil => intro acc; simp [splitNlAcc, splitNl, consFirst]
  | cons c rest ih =>
    intro acc
    by_cases hc : c = '\n'
    · subst hc
      cases hsp : splitNl rest with
      | nil => exact absurd hsp (splitNl_ne_nil rest)
      | cons a as =>
        have h2 := ih []
        rw [hsp] at h2
        simp only [consFirst, List.nil_append] at h2
        simp [splitNlAcc, splitNl, hsp, consFirst, h2]
    · cases hsp : splitNl rest with
      | nil => exact absurd hsp (splitNl_ne_nil rest)
      | cons a as =>
        have h2 := ih (acc ++ [c])
        rw [hsp] at h2
        simp only [consFirst] at h2
        simp only [splitNlAcc, splitNl, if_neg hc, hsp, consFirst]
        rw [h2]
        simp [List.append_assoc]

theorem splitNl_append_nonl (acc : List Char) (s : List Char) (h : ∀ ch ∈ acc, ch ≠ '\n') :
    splitNl (acc ++ s) = consFirst acc (splitNl s) := by
  induction acc with
  | nil =>
    cases hsp : splitNl s with
    | nil => exact absurd hsp (splitNl_ne_nil s)
    | cons a as => simp [consFirst, hsp]
  | cons c acc2 ih =>
    have hc : c ≠ '\n' := h c (by simp)
    have hacc : ∀ ch ∈ acc2, ch ≠ '\n' := fun ch hm => h ch (by simp [hm])
    cases hsp : splitNl s with
    | nil => exact absurd hsp (splitNl_ne_nil s)
    | cons a as =>
      have h2 := ih hacc
      rw [hsp] at h2
      simp only [consFirst] at h2
      simp only [List.cons_append, splitNl, consFirst]
      simp [h2, hc]

theorem splitNlAcc_frag_no_nl (l : List Char) : ∀ acc, (∀ ch ∈ acc, ch ≠ '\n') →
    ∀ ch ∈ (splitNlAcc acc l).2, ch ≠ '\n' := by
  induction l with
  | nil => intro acc h; simpa [splitNlAcc] using h
  | cons c rest ih =>
    intro acc h
    by_cases hc : c = '\n'
    · subst hc
      simp only [splitNlAcc, if_pos rfl]
      exact ih [] (by simp)
    · simp only [splitNlAcc, if_neg hc]
      refine ih (acc ++ [c]) ?_
      intro ch hm
      rcases List.mem_append.mp hm with h1 | h1
      · exact h ch h1
      · simp at h1; subst h1; exact hc

theorem splitNlAcc_append (a : List Char) : ∀ (acc : List Char) (b : List Char),
    splitNlAcc acc (a ++ b) =
      ((splitNlAcc acc a).1 ++ (splitNlAcc (splitNlAcc acc a).2 b).1,
       (splitNlAcc (splitNlAcc acc a).2 b).2) := by
  induction a with
  | nil => intro acc b; simp [splitNlAcc]
  | cons c a2 ih =>
    intro acc b
    by_cases hc : c = '\n'
    · subst hc
      simp [List.cons_append, splitNlAcc, ih [] b]
    · simp [List.cons_append, splitNlAcc, hc, ih (acc ++ [c]) b]

theorem runLines_append (parse : List Char → Option StreamChunk) (uuid : String) (now : Int)
    (model : String) (L1 L2 : List (List Char)) :
    runLines parse uuid now model (L1 ++ L2) =
      (if (runLines parse uuid now model L1).2
       then (runLines parse uuid now model L1).1
       else (runLines parse uuid now model L1).1 ++ (runLines parse uuid now model L2).1,
       (runLines parse uuid now model L1).2 || (runLines parse uuid now model L2).2) := by
  induction L1 with
  | nil => simp [runLines]
  | cons line rest ih =>
    by_cases hb : line.all Char.isWhitespace
    · simpa [runLines, hb] using ih
    · by_cases hd : ['d', 'a', 't', 'a', ':', ' '] <+: line
      · by_cases hdone : line.drop 6 = ['[', 'D', 'O', 'N', 'E', ']']
        · simp [runLines, hb, hd, hdone]
        · cases hp : parse (line.drop 6) with
          | some c =>
            by_cases hq : (runLines parse uuid now model rest).2 <;>
              simp [runLines, hb, hd, hdone, hp, ih, hq]
          | none => simpa [runLines, hb, hd, hdone, hp] using ih
      · simpa [runLines, hb, hd] using ih

theorem specLineRelay_eq_runLines (parse : List Char → Option StreamChunk) (uuid : String)
    (now : Int) (model : String) (ls : List (List Char)) :
    specLineRelay parse uuid now model ls =
      (if (runLines parse uuid now model ls).2
       then (runLines parse uuid now model ls).1
       else (runLines parse uuid now model ls).1 ++ [OutEvent.done]) := by
  induction ls with
  | nil => simp [specLineRelay, runLines]
  | cons line rest ih =>
    by_cases hb : line.all Char.isWhitespace
    · simpa [specLineRelay, runLines, hb] using ih
    · by_cases hd : ['d', 'a', 't', 'a', ':', ' '] <+: line
      · by_cases hdone : line.drop 6 = ['[', 'D', 'O', 'N', 'E', ']']
        · simp [specLineRelay, runLines, hb, hd, hdone]
        · cases hp : parse (line.drop 6) with
          | some c =>
            by_cases hq : (runLines parse uuid now model rest).2 <;>
              simp [specLineRelay, runLines, hb, hd, hdone, hp, ih, hq]
          | none => simpa [specLineRelay, runLines, hb, hd, hdone, hp] using ih
      · simpa [specLineRelay, runLines, hb, hd] using ih

theorem processSSEStream_chunks (parse : List Char → Option StreamChunk) (uuid : String)
    (now : Int) (model : String) (cs : List (List Char)) :
    ∀ buffer : List Char, (∀ ch ∈ buffer, ch ≠ '\n') →
    processSSEStream parse uuid now model buffer (cs.map ReadEvent.chunk) =
      (if (runLines parse uuid now model (splitNlAcc buffer cs.flatten).1).2
       then (runLines parse uuid now model (splitNlAcc buffer cs.flatten).1).1
       else (runLines parse uuid now model (splitNlAcc buffer cs.flatten).1).1
         ++ [OutEvent.done]) := by
  induction cs with
  | nil =>
    intro buffer hb
    simp [processSSEStream, splitNlAcc, runLines]
  | cons s rest ih =>
    intro buffer hb
    have hsplit : splitNl (buffer ++ s) =
        (splitNlAcc buffer s).1 ++ [(splitNlAcc buffer s).2] :=
      (splitNl_append_nonl buffer s hb).trans (splitNlAcc_spec s buffer).symm
    have hdrop : (splitNl (buffer ++ s)).dropLast = (splitNlAcc buffer s).1 := by
      rw [hsplit]; exact List.dropLast_concat
    have hlastd : (splitNl (buffer ++ s)).getLastD [] = (splitNlAcc buffer s).2 := by
      rw [hsplit, List.getLastD_eq_getLast?, List.getLast?_concat]; rfl
    have hfrag := splitNlAcc_frag_no_nl s buffer hb
    simp only [List.map_cons, processSSEStream, hdrop, hlastd]
    rw [ih (splitNlAcc buffer s).2 hfrag]
    rw [List.flatten_cons, splitNlAcc_append s buffer rest.flatten]
    rw [runLines_append parse uuid now model (splitNlAcc buffer s).1
      (splitNlAcc (splitNlAcc buffer s).2 rest.flatten).1]
    by_cases h1 : (runLines parse uuid now model (splitNlAcc buffer s).1).2
    · simp [h1]
    · by_cases h2 : (runLines parse uuid now model
          (splitNlAcc (splitNlAcc buffer s).2 rest.flatten).1).2 <;>
        simp [h1, h2, List.append_assoc]

/-- C9: however the upstream text is split into read chunks, the relay
behaves as the per-line specification applied to the complete
(newline-terminated) lines of the whole stream: every `data: ` line
whose payload parses is re-emitted exactly once, in order, normalised
by `formatChunk` (missing id / created / model filled in, model falling
back to the request model); `data: [DONE]` terminates the relay
immediately with exactly one terminal sentinel; an unparseable payload
is dropped silently and the relay continues. -/
theorem c9_relay_refinement (parse : List Char → Option StreamChunk) (uuid : String)
    (now : Int) (model : String) (cs : List (List Char)) :
    processSSEStream parse uuid now model [] (cs.map ReadEvent.chunk) =
      specLineRelay parse uuid now model (splitNlAcc [] cs.flatten).1 := by
  rw [processSSEStream_chunks parse uuid now model cs [] (by simp),
    specLineRelay_eq_runLines]

theorem runLines_counts (parse : List Char → Option StreamChunk) (uuid : String) (now : Int)
    (model : String) (ls : List (List Char)) :
    (runLines parse uuid now model ls).1.countP isErrorChunkEvent = 0 ∧
    ((runLines parse uuid now model ls).2 = true →
      (runLines parse uuid now model ls).1.getLast? = some OutEvent.done ∧
      (runLines parse uuid now model ls).1.countP isDoneEvent = 1) ∧
    ((runLines parse uuid now model ls).2 = false →
      (runLines parse uuid now model ls).1.countP isDoneEvent = 0) := by
  induction ls with
  | nil => simp [runLines]
  | cons line rest ih =>
    by_cases hb : line.all Char.isWhitespace
    · simpa [runLines, hb] using ih
    · by_cases hd : ['d', 'a', 't', 'a', ':', ' '] <+: line
      · by_cases hdone : line.drop 6 = ['[', 'D', 'O', 'N', 'E', ']']
        · simp [runLines, hb, hd, hdone, isDoneEvent, isErrorChunkEvent]
        · cases hp : parse (line.drop 6) with
          | some c =>
            have hrl : runLines parse uuid now model (line :: rest) =
                (OutEvent.chunk (formatChunk uuid now model c) ::
                  (runLines parse uuid now model rest).1,
                 (runLines parse uuid now model rest).2) := by
              simp [runLines, hb, hd, hdone, hp]
            rw [hrl]
            refine ⟨?_, ?_, ?_⟩
            · simp [isErrorChunkEvent, ih.1]
            · intro ht
              obtain ⟨hl, hcnt⟩ := ih.2.1 ht
              constructor
              · rw [List.getLast?_cons]
                simp [hl]
              · simp [isDoneEvent, hcnt]
            · intro hf
              simp [isDoneEvent, ih.2.2 hf]
          | none => simpa [runLines, hb, hd, hdone, hp] using ih
      · simpa [runLines, hb, hd] using ih

/-- C2 (amended): the relay's output stream is always terminated — it
ends with the `[DONE]` sentinel and contains exactly one sentinel; at
most one synthetic error chunk is ever emitted; a stream consisting
only of chunk reads (abrupt clean close included) produces no synthetic
error chunk; and a read error produces exactly one synthetic error
chunk immediately followed by the sentinel. -/
theorem c2_stream_always_terminated (parse : List Char → Option StreamChunk) (uuid : String)
    (now : Int) (model : String) (events : List ReadEvent) : ∀ buffer : List Char,
    (processSSEStream parse uuid now model buffer events).getLast? = some OutEvent.done ∧
    (processSSEStream parse uuid now model buffer events).countP isDoneEvent = 1 ∧
    (processSSEStream parse uuid now model buffer events).countP isErrorChunkEvent ≤ 1 ∧
    ((∀ e ∈ events, isChunkRead e = true) →
      (processSSEStream parse uuid now model buffer events).countP isErrorChunkEvent = 0) ∧
    (∀ msg rest2,
      processSSEStream parse uuid now model buffer (ReadEvent.readError msg :: rest2) =
        [OutEvent.errorChunk msg, OutEvent.done]) := by
  induction events with
  | nil =>
    intro buffer
    exact ⟨rfl, by simp [processSSEStream, isDoneEvent],
      by simp [processSSEStream, isErrorChunkEvent],
      fun _ => by simp [processSSEStream, isErrorChunkEvent], fun msg rest2 => rfl⟩
  | cons ev rest ih =>
    cases ev with
    | readError msg =>
      intro buffer
      refine ⟨rfl, by simp [processSSEStream, isDoneEvent, isErrorChunkEvent], ?_, ?_,
        fun m r => rfl⟩
      · simp [processSSEStream, isDoneEvent, isErrorChunkEvent]
      · intro hall
        have hthis := hall (ReadEvent.readError msg) (by simp)
        simp [isChunkRead] at hthis
    | chunk s =>
      intro buffer
      obtain ⟨ihe1, ihe2, ihe3, ihe4, _⟩ := ih ((splitNl (buffer ++ s)).getLast?.getD [])
      have hc := runLines_counts parse uuid now model (splitNl (buffer ++ s)).dropLast
      by_cases hterm : (runLines parse uuid now model (splitNl (buffer ++ s)).dropLast).2
      · obtain ⟨hl2, hcnt2⟩ := hc.2.1 hterm
        refine ⟨?_, ?_, ?_, ?_, fun msg rest2 => rfl⟩
        · simp [processSSEStream, hterm, hl2]
        · simp [processSSEStream, hterm, hcnt2]
        · simp [processSSEStream, hterm, hc.1]
        · intro _
          simp [processSSEStream, hterm, hc.1]
      · have h3 := hc.2.2 (by simpa using hterm)
        refine ⟨?_, ?_, ?_, ?_, fun msg rest2 => rfl⟩
        · simp [processSSEStream, hterm, List.getLast?_append, ihe1, Option.or]
        · simp [processSSEStream, hterm, List.countP_append, h3, ihe2]
        · simp [processSSEStream, hterm, List.countP_append, hc.1, ihe3]
        · intro hall
          have hrest : ∀ e ∈ rest, isChunkRead e = true := fun e he => hall e (by simp [he])
          simp [processSSEStream, hterm, List.countP_append, hc.1, ihe4 hrest]

/-- C2 counterexample: a stream that ends abruptly mid-line without
`[DONE]` and without a read error produces no synthetic error chunk at
all — only the terminal sentinel — contradicting the claim that one
synthetic error chunk is emitted whenever the stream ends without
`[DONE]`. -/
theorem c2_abrupt_close_counterexample :
    processSSEStream (fun _ => none) "u" 0 "m" [] [ReadEvent.chunk ("data: x".toList)] =
      [OutEvent.done] ∧
    (processSSEStream (fun _ => none) "u" 0 "m" []
      [ReadEvent.chunk ("data: x".toList)]).countP isErrorChunkEvent = 0 := by
  exact ⟨rfl, rfl⟩

/-- C2 witness: a clean chunk-only stream yields no synthetic error
chunk, and a read error yields exactly the synthetic error chunk
followed by the sentinel. -/
theorem c2_stream_always_terminated_witness :
    (processSSEStream (fun _ => none) "u" 0 "m" []
        [ReadEvent.chunk ("data: x\n".toList)]).countP isErrorChunkEvent = 0 ∧
    processSSEStream (fun _ => none) "u" 0 "m" [] [ReadEvent.readError "boom"] =
      [OutEvent.errorChunk "boom", OutEvent.done] :=
  ⟨(c2_stream_always_terminated (fun _ => none) "u" 0 "m"
      [ReadEvent.chunk ("data: x\n".toList)] []).2.2.2.1 (by decide),
   (c2_stream_always_terminated (fun _ => none) "u" 0 "m" [] []).2.2.2.2 "boom" []⟩

end QwenProxy
